import Mathlib

/-!
Verification development for the Todo application (ASP.NET Core Web API +
React frontend).  The server side embeds `TodoController.cs` together with
the `TodoService` from the repository's README code listing; the client side
embeds `services/todoService.js` and the handlers in `App.js`.
-/

/-! ## String helpers: JS `trim()` / C# `Trim()`, and the JS tag-strip regex -/

/-- Whitespace characters removed by JS `String.prototype.trim` and by C#
`string.Trim` (the common subset relevant to this application). -/
def isWs (c : Char) : Bool :=
  c = ' ' || c = '\t' || c = '\n' || c = '\r' || c = '\x0b' || c = '\x0c'

/-- Remove trailing whitespace. -/
def trimR (l : List Char) : List Char :=
  (l.reverse.dropWhile isWs).reverse

/-- Remove leading and trailing whitespace, as JS `trim()` / C# `Trim()` do. -/
def trimChars (l : List Char) : List Char :=
  trimR (l.dropWhile isWs)

/-- JS `s.trim()` (also C# `s.Trim()`). -/
def jsTrim (s : String) : String :=
  String.mk (trimChars s.data)

/-- Split a character list at its first `>`: returns the characters before it
and the characters after it, or `none` when no `>` occurs. -/
def splitAtGt : List Char → Option (List Char × List Char)
  | [] => none
  | c :: cs =>
    if c = '>' then some ([], cs)
    else
      match splitAtGt cs with
      | some (b, a) => some (c :: b, a)
      | none => none

/-- Global replacement of the regex `<\/?[^>]+(>|$)` by the empty string, as
performed by `input.replace(/<\/?[^>]+(>|$)/g, "")` in `App.js`.  A match
starts at a `<` and extends through the next `>` provided at least one
character lies between them (`[^>]+` must consume something); when no `>`
follows, the match extends to the end of the string (the `$` alternative),
again provided at least one character follows the `<`.  The fuel argument is
an upper bound on the list length, making the recursion structural. -/
def stripTagsAux : Nat → List Char → List Char
  | 0, l => l
  | _ + 1, [] => []
  | fuel + 1, c :: cs =>
    if c = '<' then
      match splitAtGt cs with
      | some (b, a) => if b = [] then c :: stripTagsAux fuel cs else stripTagsAux fuel a
      | none => if cs = [] then [c] else []
    else c :: stripTagsAux fuel cs

/-- Remove every HTML-tag-like substring, per the regex in `App.js`. -/
def stripTagsL (l : List Char) : List Char :=
  stripTagsAux l.length l

/-! ## Data model (`TodoItem.cs`) -/

/-- `TodoItem` from `Models/TodoItem.cs`: `Id`, `Title` (a C# reference that
may be null, hence `Option`), `IsCompleted`. -/
structure TodoItem where
  id : Int
  title : Option String
  isCompleted : Bool
deriving DecidableEq, Repr

/-- `TodoDto` from `Models/TodoItem.cs`: the PUT body `{id, isCompleted}`. -/
structure TodoDto where
  id : Int
  isCompleted : Bool
deriving DecidableEq, Repr

/-- The in-memory store backing the EF Core `TodoContext`: the item table in
insertion order plus the key generator's next value. -/
structure Store where
  items : List TodoItem
  nextId : Int
deriving DecidableEq, Repr

/-- `FindAsync(id)`: the first (unique, in reachable stores) item with the
given key. -/
def findById (items : List TodoItem) (i : Int) : Option TodoItem :=
  items.find? (fun it => decide (it.id = i))

/-- In-place mutation performed by `UpdateTodo`: the tracked entity with the
given key gets its `IsCompleted` negated; every other entity is untouched. -/
def toggleFirst (i : Int) : List TodoItem → List TodoItem
  | [] => []
  | it :: rest =>
    if it.id = i then { it with isCompleted := !it.isCompleted } :: rest
    else it :: toggleFirst i rest

/-- `FindAsync(id)` followed by `Remove`: delete the entity with the given
key, leaving the table unchanged when the key is absent. -/
def deleteFirstById (i : Int) : List TodoItem → List TodoItem
  | [] => []
  | it :: rest => if it.id = i then rest else it :: deleteFirstById i rest

/-! ## Validation (`[Required]`, `[StringLength(100)]` on `TodoItem.Title`) -/

/-- `RequiredAttribute.IsValid`: fails on null and, since `AllowEmptyStrings`
is false, on a string whose `Trim()` is empty. -/
def requiredValid : Option String → Bool
  | none => false
  | some s => !(trimChars s.data).isEmpty

/-- `StringLengthAttribute(100).IsValid`: null passes; otherwise the raw
length must not exceed 100. -/
def stringLengthValid : Option String → Bool
  | none => true
  | some s => s.length ≤ 100

/-- `ModelState.IsValid` for a posted `TodoItem` body `{title}`. -/
def modelStateValid (title : Option String) : Bool :=
  requiredValid title && stringLengthValid title

/-! ## Server (`TodoService` from the README listing, `TodoController.cs`) -/

namespace TodoService

/-- `GetTodos`: the whole table. -/
def GetTodos (s : Store) : List TodoItem :=
  s.items

/-- `AddTodo` appends the posted item and saves.

Modelled from the spec: the EF Core in-memory provider's integer key
generation is not part of the repository source; per the spec the store
"assigns next integer id, starting at 1, strictly increasing even across
deletes", so saving a new item stores it with the generator's current value
and increments the generator. -/
def AddTodo (s : Store) (title : Option String) : TodoItem × Store :=
  let item : TodoItem := { id := s.nextId, title := title, isCompleted := false }
  (item, { items := s.items ++ [item], nextId := s.nextId + 1 })

/-- `UpdateTodo(TodoDto item)`: find the entity with key `item.Id`; when
present, negate its stored `IsCompleted` (the DTO's `IsCompleted` is never
read) and save; return the entity, or null when the key is unknown. -/
def UpdateTodo (s : Store) (dto : TodoDto) : Option TodoItem × Store :=
  match findById s.items dto.id with
  | none => (none, s)
  | some it =>
    (some { it with isCompleted := !it.isCompleted },
     { s with items := toggleFirst dto.id s.items })

/-- `DeleteTodoById(id)`: remove the entity with the given key when present. -/
def DeleteTodoById (s : Store) (i : Int) : Store :=
  { s with items := deleteFirstById i s.items }

end TodoService

namespace TodoController

/-- `GET api/todo`. -/
def GetTodos (s : Store) : Nat × List TodoItem :=
  (200, TodoService.GetTodos s)

/-- `POST api/todo` with body `{title}` (so `Id = 0`, `IsCompleted = false`
after binding): 400 when `ModelState` is invalid, otherwise 201 with the
created item.  Returns (status, store, created item). -/
def AddTodo (s : Store) (title : Option String) : Nat × Store × Option TodoItem :=
  if modelStateValid title then
    let r := TodoService.AddTodo s title
    (201, r.2, some r.1)
  else (400, s, none)

/-- `PUT api/todo/{id}` with body `{id, isCompleted}`: 400 when the path id
differs from the body id (`TodoDto` carries no validation annotations, so
its `ModelState` check always passes), 404 when `UpdateTodo` returns null,
200 otherwise. -/
def PutTodoItem (s : Store) (pathId : Int) (dto : TodoDto) : Nat × Store :=
  if pathId ≠ dto.id then (400, s)
  else
    match TodoService.UpdateTodo s dto with
    | (none, s') => (404, s')
    | (some _, s') => (200, s')

/-- `DELETE api/todo/{id}`: always 204. -/
def DeleteTodo (s : Store) (i : Int) : Nat × Store :=
  (204, TodoService.DeleteTodoById s i)

end TodoController

/-! ## Client service layer (`services/todoService.js`) -/

/-- `response.ok`: status in the 200–299 range. -/
def isOk (status : Nat) : Bool :=
  200 ≤ status && status < 300

/-- The PUT body built by `toggleTodo` in `todoService.js`:
`{ id: id, isCompleted: !isCompleted }` — the negation of the completion
value the client currently displays. -/
def toggleBody (id : Int) (isCompleted : Bool) : TodoDto :=
  { id := id, isCompleted := !isCompleted }

/-- `getTodos()`: GET the full list. -/
def getTodos (server : Store) : List TodoItem :=
  (TodoController.GetTodos server).2

/-- `createTodo(title)`: `if (!title.trim()) return;` — when the trimmed
title is empty the function returns without issuing any request (`none`);
otherwise it POSTs `{title}` and reports the response status. -/
def createTodo (server : Store) (title : String) : Store × Option Nat :=
  if jsTrim title = "" then (server, none)
  else
    let r := TodoController.AddTodo server (some title)
    (r.2.1, some r.1)

/-- Whether `createTodo` throws: only when a request was issued and the
response was not ok (`throw new Error('Failed to add todo')`). -/
def createTodoThrew (server : Store) (title : String) : Bool :=
  match (createTodo server title).2 with
  | none => false
  | some status => !isOk status

/-- `toggleTodo(id, isCompleted)`: PUT `{id, isCompleted: !isCompleted}` to
`api/todo/{id}`; returns the new server state and the response status. -/
def toggleTodo (server : Store) (id : Int) (isCompleted : Bool) : Store × Nat :=
  let r := TodoController.PutTodoItem server id (toggleBody id isCompleted)
  (r.2, r.1)

/-- `deleteTodo(id)`: DELETE `api/todo/{id}`. -/
def deleteTodo (server : Store) (id : Int) : Store × Nat :=
  let r := TodoController.DeleteTodo server id
  (r.2, r.1)

/-! ## View state controller (`App.js`) -/

/-- The component state of `App.js`: the mirrored list, the input field, and
the last surfaced error. -/
structure ClientState where
  todos : List TodoItem
  title : String
  error : Option String
deriving DecidableEq, Repr

namespace App

/-- `sanitizeInput`: strip HTML-tag-like substrings with the regex
`/<\/?[^>]+(>|$)/g`, then `trim()`. -/
def sanitizeInput (input : String) : String :=
  String.mk (trimChars (stripTagsL input.data))

/-- `validateInput`: false when the length is 0 or exceeds 100. -/
def validateInput (input : String) : Bool :=
  if input.length = 0 then false
  else if 100 < input.length then false
  else true

/-- The error message `validateInput` surfaces when it returns false. -/
def validateMsg (input : String) : Option String :=
  if input.length = 0 then some "Todo title cannot be empty."
  else if 100 < input.length then some "Todo title cannot be longer than 100 characters."
  else none

/-- `fetchTodosFromService`: GET the list and store it in `todos`. -/
def fetchTodosFromService (server : Store) (cs : ClientState) : ClientState :=
  { cs with todos := getTodos server }

/-- `addTodo`: on a non-empty raw trim, sanitize, validate, call
`createTodo`, then clear the input and re-fetch; a thrown service error is
caught and surfaced; a raw-empty title surfaces "title is required". -/
def addTodo (server : Store) (cs : ClientState) : Store × ClientState :=
  if jsTrim cs.title ≠ "" then
    let sanitizedTitle := sanitizeInput cs.title
    if validateInput sanitizedTitle then
      let r := createTodo server sanitizedTitle
      match r.2 with
      | none => (r.1, fetchTodosFromService r.1 { cs with title := "" })
      | some status =>
        if isOk status then (r.1, fetchTodosFromService r.1 { cs with title := "" })
        else (r.1, { cs with error := some "Failed to add todo" })
    else (server, { cs with error := validateMsg sanitizedTitle })
  else (server, { cs with error := some "title is required" })

/-- `deletetodo(id)`: call `deleteTodo`, then clear the input and re-fetch;
a thrown service error is caught and surfaced. -/
def deletetodo (server : Store) (cs : ClientState) (id : Int) : Store × ClientState :=
  let r := deleteTodo server id
  if isOk r.2 then (r.1, fetchTodosFromService r.1 { cs with title := "" })
  else (r.1, { cs with error := some "Failed to delete todo" })

/-- `toggletodo(id, isCompleted)`: call `toggleTodo`, then re-fetch; a
thrown service error is caught and surfaced. -/
def toggletodo (server : Store) (cs : ClientState) (id : Int) (isCompleted : Bool) :
    Store × ClientState :=
  let r := toggleTodo server id isCompleted
  if isOk r.2 then (r.1, fetchTodosFromService r.1 cs)
  else (r.1, { cs with error := some "Failed to update todo" })

end App

/-! ## Operation sequences over the store (for the identifier discipline) -/

/-- One HTTP mutation against the server. -/
inductive Op where
  | create (title : Option String)
  | toggle (pathId : Int) (dto : TodoDto)
  | del (i : Int)
deriving DecidableEq, Repr

/-- Apply one mutation through the controller. -/
def applyOp (s : Store) : Op → Store
  | Op.create t => (TodoController.AddTodo s t).2.1
  | Op.toggle pathId dto => (TodoController.PutTodoItem s pathId dto).2
  | Op.del i => (TodoController.DeleteTodo s i).2

/-- The store of a fresh process: empty table, key generator at 1. -/
def store0 : Store :=
  { items := [], nextId := 1 }

/-- Run a sequence of mutations from the fresh store. -/
def runOps (ops : List Op) : Store :=
  ops.foldl applyOp store0

/-! ## Lemmas about trimming -/

theorem dropWhile_idem {α : Type} (p : α → Bool) (l : List α) :
    (l.dropWhile p).dropWhile p = l.dropWhile p := by
  induction l with
  | nil => rfl
  | cons a l ih =>
    cases hpa : p a with
    | true => simpa [List.dropWhile_cons, hpa] using ih
    | false => simp [List.dropWhile_cons, hpa]

theorem head_not_ws_of_trimmed {a : Char} {l : List Char}
    (h : (a :: l).dropWhile isWs = a :: l) : isWs a = false := by
  cases hab : isWs a with
  | false => rfl
  | true =>
    rw [List.dropWhile_cons_of_pos hab] at h
    have hle := ((List.dropWhile_suffix (l := l) isWs).sublist).length_le
    rw [h] at hle
    simp at hle

theorem dropWhile_trimR_of_trimmed (l : List Char) (h : l.dropWhile isWs = l) :
    (trimR l).dropWhile isWs = trimR l := by
  cases l with
  | nil => rfl
  | cons a l' =>
    have ha : isWs a = false := head_not_ws_of_trimmed h
    obtain ⟨t, ht⟩ := List.dropWhile_suffix (l := (a :: l').reverse) isWs
    have hrev : (a :: l') = trimR (a :: l') ++ t.reverse := by
      have := congrArg List.reverse ht
      simpa [trimR] using this.symm
    cases htr : trimR (a :: l') with
    | nil => rfl
    | cons b m =>
      have hb : b = a := by
        rw [htr] at hrev
        exact (List.cons.injEq _ _ _ _ ▸ hrev).1.symm
      rw [hb]
      exact List.dropWhile_cons_of_neg (by simp [ha])

theorem trimR_trimR (l : List Char) : trimR (trimR l) = trimR l := by
  unfold trimR
  rw [List.reverse_reverse, dropWhile_idem]

theorem trimChars_idem (l : List Char) : trimChars (trimChars l) = trimChars l := by
  unfold trimChars
  rw [dropWhile_trimR_of_trimmed _ (dropWhile_idem isWs l), trimR_trimR]

theorem data_mk (l : List Char) : (String.mk l).data = l := rfl

theorem jsTrim_mk (l : List Char) : jsTrim (String.mk l) = String.mk (trimChars l) := rfl

theorem jsTrim_sanitizeInput (s : String) :
    jsTrim (App.sanitizeInput s) = App.sanitizeInput s := by
  unfold App.sanitizeInput
  rw [jsTrim_mk, trimChars_idem]

theorem trimChars_data_sanitizeInput (s : String) :
    trimChars (App.sanitizeInput s).data = (App.sanitizeInput s).data := by
  unfold App.sanitizeInput
  rw [data_mk, trimChars_idem]

theorem length_mk (l : List Char) : (String.mk l).length = l.length := rfl

theorem mk_ne_empty_of_ne_nil {l : List Char} (h : l ≠ []) : String.mk l ≠ "" := by
  intro hcon
  exact h (congrArg String.data hcon)

/-! ## Lemmas about the store operations -/

theorem toggleFirst_map_idTitle (i : Int) (l : List TodoItem) :
    (toggleFirst i l).map (fun it => (it.id, it.title))
      = l.map (fun it => (it.id, it.title)) := by
  induction l with
  | nil => rfl
  | cons it rest ih =>
    by_cases h : it.id = i
    · simp [toggleFirst, h]
    · simp [toggleFirst, h, ih]

theorem toggleFirst_map_id (i : Int) (l : List TodoItem) :
    (toggleFirst i l).map TodoItem.id = l.map TodoItem.id := by
  induction l with
  | nil => rfl
  | cons it rest ih =>
    by_cases h : it.id = i
    · simp [toggleFirst, h]
    · simp [toggleFirst, h, ih]

theorem findById_toggleFirst (i : Int) (l : List TodoItem) :
    findById (toggleFirst i l) i
      = (findById l i).map (fun it => { it with isCompleted := !it.isCompleted }) := by
  induction l with
  | nil => rfl
  | cons it rest ih =>
    by_cases h : it.id = i
    · simp [toggleFirst, findById, h]
    · simp only [toggleFirst, if_neg h]
      simp only [findById] at ih ⊢
      simp [h, ih]

theorem toggleFirst_forall₂ (i : Int) (l : List TodoItem) :
    List.Forall₂ (fun a b => (a.id ≠ i ∧ b = a) ∨
        (a.id = i ∧ (b = a ∨ b = { a with isCompleted := !a.isCompleted })))
      l (toggleFirst i l) := by
  induction l with
  | nil => exact List.Forall₂.nil
  | cons it rest ih =>
    by_cases h : it.id = i
    · rw [toggleFirst, if_pos h]
      refine List.Forall₂.cons (Or.inr ⟨h, Or.inr rfl⟩) ?_
      refine List.forall₂_same.2 (fun x _ => ?_)
      by_cases hx : x.id = i
      · exact Or.inr ⟨hx, Or.inl rfl⟩
      · exact Or.inl ⟨hx, rfl⟩
    · rw [toggleFirst, if_neg h]
      exact List.Forall₂.cons (Or.inl ⟨h, rfl⟩) ih

theorem forall₂_toggle_refl (i : Int) (l : List TodoItem) :
    List.Forall₂ (fun a b => (a.id ≠ i ∧ b = a) ∨
        (a.id = i ∧ (b = a ∨ b = { a with isCompleted := !a.isCompleted })))
      l l := by
  refine List.forall₂_same.2 (fun x _ => ?_)
  by_cases hx : x.id = i
  · exact Or.inr ⟨hx, Or.inl rfl⟩
  · exact Or.inl ⟨hx, rfl⟩

theorem deleteFirstById_sublist (i : Int) (l : List TodoItem) :
    (deleteFirstById i l).Sublist l := by
  induction l with
  | nil => exact List.Sublist.refl _
  | cons it rest ih =>
    by_cases h : it.id = i
    · rw [deleteFirstById, if_pos h]
      exact List.sublist_cons_self it rest
    · rw [deleteFirstById, if_neg h]
      exact List.cons_sublist_cons.2 ih

theorem deleteFirstById_eq_of_not_mem (i : Int) (l : List TodoItem)
    (h : ∀ it ∈ l, it.id ≠ i) : deleteFirstById i l = l := by
  induction l with
  | nil => rfl
  | cons it rest ih =>
    rw [deleteFirstById, if_neg (h it (List.mem_cons_self it rest))]
    rw [ih (fun x hx => h x (List.mem_cons_of_mem _ hx))]

theorem not_mem_deleteFirstById (i : Int) (l : List TodoItem)
    (h : (l.map TodoItem.id).Nodup) :
    ∀ it ∈ deleteFirstById i l, it.id ≠ i := by
  induction l with
  | nil => intro it hit; simp [deleteFirstById] at hit
  | cons a rest ih =>
    rw [List.map_cons, List.nodup_cons] at h
    by_cases ha : a.id = i
    · rw [deleteFirstById, if_pos ha]
      intro it hit hcon
      have hmem : it.id ∈ List.map TodoItem.id rest := List.mem_map_of_mem TodoItem.id hit
      rw [hcon, ← ha] at hmem
      exact h.1 hmem
    · rw [deleteFirstById, if_neg ha]
      intro it hit
      rcases List.mem_cons.1 hit with rfl | hmem
      · exact ha
      · exact ih h.2 it hmem

/-! ## Lemmas about tag stripping -/

theorem stripTagsAux_of_no_lt (fuel : Nat) :
    ∀ l : List Char, l.length ≤ fuel → (∀ c ∈ l, c ≠ '<') →
      stripTagsAux fuel l = l := by
  induction fuel with
  | zero => intro l _ _; rfl
  | succ fuel ih =>
    intro l hlen h
    cases l with
    | nil => rfl
    | cons c cs =>
      have hc : c ≠ '<' := h c (List.mem_cons_self c cs)
      rw [stripTagsAux, if_neg hc]
      rw [ih cs (by simpa using Nat.le_of_succ_le_succ hlen)
        (fun x hx => h x (List.mem_cons_of_mem _ hx))]

theorem stripTagsL_of_no_lt (l : List Char) (h : ∀ c ∈ l, c ≠ '<') :
    stripTagsL l = l :=
  stripTagsAux_of_no_lt l.length l le_rfl h

/-! ## Shape lemmas for the endpoints -/

theorem putTodoItem_shape (s : Store) (pathId : Int) (dto : TodoDto) :
    (TodoController.PutTodoItem s pathId dto).2.nextId = s.nextId
    ∧ ((TodoController.PutTodoItem s pathId dto).2.items = s.items
       ∨ (TodoController.PutTodoItem s pathId dto).2.items = toggleFirst dto.id s.items) := by
  unfold TodoController.PutTodoItem TodoService.UpdateTodo
  by_cases h : pathId ≠ dto.id
  · simp [h]
  · cases hf : findById s.items dto.id <;> simp [h, hf]

theorem putTodoItem_status (s : Store) (pathId : Int) (dto : TodoDto) :
    (TodoController.PutTodoItem s pathId dto).1 = 400
    ∨ (TodoController.PutTodoItem s pathId dto).1 = 404
    ∨ (TodoController.PutTodoItem s pathId dto).1 = 200 := by
  unfold TodoController.PutTodoItem TodoService.UpdateTodo
  by_cases h : pathId ≠ dto.id
  · simp [h]
  · cases hf : findById s.items dto.id <;> simp [h, hf]

theorem putTodoItem_not_ok (s : Store) (pathId : Int) (dto : TodoDto)
    (h : (TodoController.PutTodoItem s pathId dto).1 ≠ 200) :
    (TodoController.PutTodoItem s pathId dto).2 = s := by
  revert h
  unfold TodoController.PutTodoItem TodoService.UpdateTodo
  by_cases h : pathId ≠ dto.id
  · simp [h]
  · cases hf : findById s.items dto.id <;> simp [h, hf]

theorem putTodoItem_found (s : Store) (i : Int) (dto : TodoDto) (it : TodoItem)
    (hp : dto.id = i) (hf : findById s.items i = some it) :
    TodoController.PutTodoItem s i dto
      = (200, { s with items := toggleFirst i s.items }) := by
  subst hp
  unfold TodoController.PutTodoItem TodoService.UpdateTodo
  simp [hf]

/-! ## Validation lemmas -/

theorem validateInput_iff (s : String) :
    App.validateInput s = true ↔ (1 ≤ s.length ∧ s.length ≤ 100) := by
  unfold App.validateInput
  by_cases h0 : s.length = 0
  · simp [h0]
  · by_cases h100 : 100 < s.length
    · simp [h0, h100]
    · simp [h0, h100]
      omega

theorem modelStateValid_some_iff (u : String) :
    modelStateValid (some u) = true ↔ (trimChars u.data ≠ [] ∧ u.length ≤ 100) := by
  unfold modelStateValid requiredValid stringLengthValid
  simp [List.isEmpty_iff]

theorem jsTrim_eq_empty_iff (u : String) : jsTrim u = "" ↔ trimChars u.data = [] := by
  unfold jsTrim
  constructor
  · intro h; exact congrArg String.data h
  · intro h; rw [h]

/-! ## The reachable-store invariant -/

/-- Invariant of every reachable store: ids are strictly increasing in
insertion order and all lie below the key generator's next value. -/
def StoreInv (s : Store) : Prop :=
  (s.items.map TodoItem.id).Chain' (· < ·) ∧ ∀ it ∈ s.items, it.id < s.nextId

theorem storeInv_store0 : StoreInv store0 := by
  constructor
  · exact List.chain'_nil
  · intro it hit; simp [store0] at hit

theorem storeInv_applyOp (s : Store) (op : Op) (h : StoreInv s) :
    StoreInv (applyOp s op) := by
  rcases op with t | ⟨pathId, dto⟩ | i
  · by_cases hv : modelStateValid t = true
    · constructor
      · simp only [applyOp, TodoController.AddTodo, TodoService.AddTodo, hv, if_pos]
        rw [List.map_append]
        rw [List.chain'_append]
        refine ⟨h.1, List.chain'_singleton _, ?_⟩
        intro x hx y hy
        simp only [List.map_cons, List.map_nil, List.head?_cons, Option.mem_def,
          Option.some.injEq] at hy
        subst hy
        have hx' : x ∈ s.items.map TodoItem.id := List.mem_of_getLast?_eq_some hx
        obtain ⟨it, hit, rfl⟩ := List.mem_map.1 hx'
        exact h.2 it hit
      · intro it hit
        simp only [applyOp, TodoController.AddTodo, TodoService.AddTodo, hv, if_pos,
          List.mem_append, List.mem_cons, List.not_mem_nil, or_false] at hit ⊢
        rcases hit with hit | rfl
        · exact lt_trans (h.2 it hit) (lt_add_one _)
        · exact lt_add_one _
    · simpa [applyOp, TodoController.AddTodo, hv] using h
  · obtain ⟨hnext, hitems⟩ := putTodoItem_shape s pathId dto
    rcases hitems with heq | heq
    · constructor
      · rw [show applyOp s (Op.toggle pathId dto) = (TodoController.PutTodoItem s pathId dto).2 from rfl, heq]
        exact h.1
      · intro it hit
        rw [show applyOp s (Op.toggle pathId dto) = (TodoController.PutTodoItem s pathId dto).2 from rfl] at hit ⊢
        rw [heq] at hit
        rw [hnext]
        exact h.2 it hit
    · constructor
      · rw [show applyOp s (Op.toggle pathId dto) = (TodoController.PutTodoItem s pathId dto).2 from rfl, heq]
        rw [toggleFirst_map_id]
        exact h.1
      · intro it hit
        rw [show applyOp s (Op.toggle pathId dto) = (TodoController.PutTodoItem s pathId dto).2 from rfl] at hit ⊢
        rw [heq] at hit
        rw [hnext]
        have : it.id ∈ (toggleFirst dto.id s.items).map TodoItem.id :=
          List.mem_map_of_mem TodoItem.id hit
        rw [toggleFirst_map_id] at this
        obtain ⟨it2, hit2, hid⟩ := List.mem_map.1 this
        rw [← hid]
        exact h.2 it2 hit2
  · constructor
    · have hsub : ((deleteFirstById i s.items).map TodoItem.id).Sublist
          (s.items.map TodoItem.id) := (deleteFirstById_sublist i s.items).map _
      exact h.1.sublist hsub
    · intro it hit
      simp only [applyOp, TodoController.DeleteTodo, TodoService.DeleteTodoById] at hit ⊢
      exact h.2 it ((deleteFirstById_sublist i s.items).subset hit)

theorem storeInv_foldl (ops : List Op) (s : Store) (h : StoreInv s) :
    StoreInv (ops.foldl applyOp s) := by
  induction ops generalizing s with
  | nil => exact h
  | cons op ops ih => exact ih _ (storeInv_applyOp s op h)

theorem storeInv_runOps (ops : List Op) : StoreInv (runOps ops) :=
  storeInv_foldl ops store0 storeInv_store0

theorem nextId_mono (s : Store) (op : Op) : s.nextId ≤ (applyOp s op).nextId := by
  rcases op with t | ⟨pathId, dto⟩ | i
  · by_cases hv : modelStateValid t = true
    · simp [applyOp, TodoController.AddTodo, TodoService.AddTodo, hv]
    · simp [applyOp, TodoController.AddTodo, hv]
  · exact le_of_eq (putTodoItem_shape s pathId dto).1.symm
  · exact le_rfl

/-! ## The client addTodo success path -/

theorem sanitizeInput_ne_empty_of_len {t : String}
    (h1 : 1 ≤ (App.sanitizeInput t).length) : jsTrim (App.sanitizeInput t) ≠ "" := by
  rw [jsTrim_sanitizeInput]
  intro hcon
  rw [hcon] at h1
  simp at h1

theorem addTodo_success (server : Store) (cs : ClientState)
    (h1 : jsTrim cs.title ≠ "")
    (h2 : App.validateInput (App.sanitizeInput cs.title) = true) :
    App.addTodo server cs
      = ({ items := server.items ++ [{ id := server.nextId,
                                       title := some (App.sanitizeInput cs.title),
                                       isCompleted := false }],
           nextId := server.nextId + 1 },
         { todos := server.items ++ [{ id := server.nextId,
                                       title := some (App.sanitizeInput cs.title),
                                       isCompleted := false }],
           title := "", error := cs.error }) := by
  obtain ⟨hlen1, hlen100⟩ := (validateInput_iff _).1 h2
  have hne : jsTrim (App.sanitizeInput cs.title) ≠ "" :=
    sanitizeInput_ne_empty_of_len hlen1
  have hvalid : modelStateValid (some (App.sanitizeInput cs.title)) = true := by
    rw [modelStateValid_some_iff]
    refine ⟨?_, hlen100⟩
    rw [trimChars_data_sanitizeInput]
    intro hcon
    rw [show (App.sanitizeInput cs.title).length
        = (App.sanitizeInput cs.title).data.length from rfl, hcon] at hlen1
    simp at hlen1
  rw [App.addTodo, if_pos h1, if_pos h2]
  rw [show createTodo server (App.sanitizeInput cs.title)
      = ((TodoController.AddTodo server (some (App.sanitizeInput cs.title))).2.1,
         some (TodoController.AddTodo server (some (App.sanitizeInput cs.title))).1)
    from by rw [createTodo, if_neg hne]]
  rw [show TodoController.AddTodo server (some (App.sanitizeInput cs.title))
      = (201, { items := server.items ++ [{ id := server.nextId,
                                            title := some (App.sanitizeInput cs.title),
                                            isCompleted := false }],
                nextId := server.nextId + 1 },
         some { id := server.nextId,
                title := some (App.sanitizeInput cs.title),
                isCompleted := false })
    from by rw [TodoController.AddTodo, if_pos hvalid]; rfl]
  rfl

/-! ## Concrete states used by the witnesses and counterexamples -/

/-- A small reachable store with two items. -/
def exStore : Store :=
  { items := [{ id := 1, title := some "a", isCompleted := false },
              { id := 2, title := some "b", isCompleted := true }],
    nextId := 3 }

/-- A client state whose input field holds " a ". -/
def exClient : ClientState :=
  { todos := [], title := " a ", error := none }

/-! ## The claims -/

/-- Claim C8 (confirmed): the client sanitize function first removes every
substring matching the HTML-tag-like pattern of the regex and then trims
leading and trailing whitespace; in particular it maps "<b>Buy milk</b>"
to "Buy milk".  Tag-free strings pass through the stripping phase intact. -/
theorem c8_theorem :
    App.sanitizeInput "<b>Buy milk</b>" = "Buy milk"
    ∧ (∀ s : String, App.sanitizeInput s = jsTrim (String.mk (stripTagsL s.data)))
    ∧ (∀ s : String, (∀ c ∈ s.data, c ≠ '<') → stripTagsL s.data = s.data) :=
  ⟨by decide, fun _ => rfl, fun s h => stripTagsL_of_no_lt s.data h⟩

theorem c8_witness : stripTagsL "Buy milk".data = "Buy milk".data :=
  c8_theorem.2.2 "Buy milk" (by decide)

/-- Claim C10 (confirmed): for every title whose trim is empty, the client
`createTodo` returns successfully without issuing any HTTP request (no
response status exists) and without raising any error. -/
theorem c10_theorem : ∀ (server : Store) (title : String),
    jsTrim title = "" →
    createTodo server title = (server, none) ∧ createTodoThrew server title = false := by
  intro server title h
  constructor
  · rw [createTodo, if_pos h]
  · simp [createTodoThrew, createTodo, h]

theorem c10_witness :
    createTodo store0 "   " = (store0, none) ∧ createTodoThrew store0 "   " = false :=
  c10_theorem store0 "   " (by decide)

/-- Claim C4 (confirmed): PUT api/todo/{id} responds 400 when the path id
differs from the body id; otherwise 404 when no stored item has that id;
otherwise 200. -/
theorem c4_theorem : ∀ (s : Store) (pathId : Int) (dto : TodoDto),
    (pathId ≠ dto.id → (TodoController.PutTodoItem s pathId dto).1 = 400)
    ∧ (pathId = dto.id → (∀ it ∈ s.items, it.id ≠ dto.id) →
        (TodoController.PutTodoItem s pathId dto).1 = 404)
    ∧ (pathId = dto.id → (∃ it ∈ s.items, it.id = dto.id) →
        (TodoController.PutTodoItem s pathId dto).1 = 200) := by
  intro s pathId dto
  refine ⟨fun h => ?_, fun hp h => ?_, fun hp h => ?_⟩
  · rw [TodoController.PutTodoItem, if_pos h]
  · have hf : findById s.items dto.id = none := by
      rw [findById, List.find?_eq_none]
      intro x hx
      simpa using h x hx
    simp [TodoController.PutTodoItem, TodoService.UpdateTodo, hp, hf]
  · rcases h with ⟨it, hit, hid⟩
    cases hf : findById s.items dto.id with
    | none =>
      exfalso
      have := (List.find?_eq_none.1 hf) it hit
      simp [hid] at this
    | some x => simp [TodoController.PutTodoItem, TodoService.UpdateTodo, hp, hf]

theorem c4_witness :
    (TodoController.PutTodoItem exStore 1 { id := 2, isCompleted := true }).1 = 400
    ∧ (TodoController.PutTodoItem exStore 5 { id := 5, isCompleted := true }).1 = 404
    ∧ (TodoController.PutTodoItem exStore 1 { id := 1, isCompleted := true }).1 = 200 :=
  ⟨(c4_theorem exStore 1 { id := 2, isCompleted := true }).1 (by decide),
   (c4_theorem exStore 5 { id := 5, isCompleted := true }).2.1 rfl (by decide),
   (c4_theorem exStore 1 { id := 1, isCompleted := true }).2.2 rfl (by decide)⟩

/-- Claim C6 (confirmed): DELETE api/todo/{id} always responds 204; when no
item has the id the store is unchanged; when one does, no item with that id
remains in the listing afterwards (ids being unique in reachable stores). -/
theorem c6_theorem : ∀ (s : Store) (i : Int),
    (TodoController.DeleteTodo s i).1 = 204
    ∧ ((∀ it ∈ s.items, it.id ≠ i) → (TodoController.DeleteTodo s i).2 = s)
    ∧ ((s.items.map TodoItem.id).Nodup →
        ∀ it ∈ (TodoController.DeleteTodo s i).2.items, it.id ≠ i) := by
  intro s i
  refine ⟨rfl, fun h => ?_, fun h => ?_⟩
  · show ({ s with items := deleteFirstById i s.items } : Store) = s
    rw [deleteFirstById_eq_of_not_mem i s.items h]
  · simpa [TodoController.DeleteTodo, TodoService.DeleteTodoById] using
      not_mem_deleteFirstById i s.items h

theorem c6_witness :
    (TodoController.DeleteTodo exStore 5).2 = exStore
    ∧ ({ id := 2, title := some "b", isCompleted := true } : TodoItem).id ≠ 1 :=
  ⟨(c6_theorem exStore 5).2.1 (by decide),
   (c6_theorem exStore 1).2.2 (by decide)
     { id := 2, title := some "b", isCompleted := true } (by decide)⟩

/-- Claim C1 counterexample: the stored item has isCompleted = true and the
PUT body carries isCompleted = true, so per the claim the stored value must
end up true (the body's value); the code instead negates the server-held
value and stores false. -/
theorem c1_counterexample :
    (TodoDto.mk 1 true).isCompleted = true
    ∧ (findById (TodoController.PutTodoItem
        { items := [{ id := 1, title := some "a", isCompleted := true }], nextId := 2 }
        1 { id := 1, isCompleted := true }).2.items 1).map TodoItem.isCompleted
      = some false :=
  ⟨rfl, by decide⟩

/-- Claim C1 (amended): for every toggle of an item the client displays with
completion value b, the client sends request body {id, isCompleted: not b};
the server, however, ignores the isCompleted value carried in the request
body (its response is identical for any two body values) and instead negates
the server-held stored value. -/
theorem c1_theorem : ∀ (s : Store) (i : Int) (b c d : Bool),
    toggleBody i b = { id := i, isCompleted := !b }
    ∧ TodoController.PutTodoItem s i { id := i, isCompleted := c }
        = TodoController.PutTodoItem s i { id := i, isCompleted := d }
    ∧ (∀ it, findById s.items i = some it →
        findById (toggleTodo s i b).1.items i
          = some { it with isCompleted := !it.isCompleted }) := by
  intro s i b c d
  refine ⟨rfl, ?_, fun it hf => ?_⟩
  · unfold TodoController.PutTodoItem TodoService.UpdateTodo
    rfl
  · rw [show (toggleTodo s i b).1 = (TodoController.PutTodoItem s i (toggleBody i b)).2
      from rfl]
    rw [putTodoItem_found s i (toggleBody i b) it rfl hf]
    show findById (toggleFirst i s.items) i = _
    rw [findById_toggleFirst, hf]
    rfl

theorem c1_witness :
    findById (toggleTodo
        { items := [{ id := 1, title := some "a", isCompleted := false }], nextId := 2 }
        1 false).1.items 1
      = some { id := 1, title := some "a", isCompleted := true } :=
  (c1_theorem { items := [{ id := 1, title := some "a", isCompleted := false }],
                nextId := 2 } 1 false true false).2.2
    { id := 1, title := some "a", isCompleted := false } (by decide)

/-- Claim C7 (confirmed): a PUT preserves every item's id and title in
order; a failed PUT (id mismatch or unknown id) leaves the store exactly as
it was; and item-wise the new list relates to the old one by leaving every
item whose id is not the target unchanged, and at most flipping the
isCompleted of an item whose id is the target. -/
theorem c7_theorem : ∀ (s : Store) (pathId : Int) (dto : TodoDto),
    ((TodoController.PutTodoItem s pathId dto).2.items.map (fun it => (it.id, it.title))
      = s.items.map (fun it => (it.id, it.title)))
    ∧ ((TodoController.PutTodoItem s pathId dto).1 ≠ 200 →
        (TodoController.PutTodoItem s pathId dto).2 = s)
    ∧ List.Forall₂ (fun a b => (a.id ≠ dto.id ∧ b = a) ∨
        (a.id = dto.id ∧ (b = a ∨ b = { a with isCompleted := !a.isCompleted })))
        s.items (TodoController.PutTodoItem s pathId dto).2.items := by
  intro s pathId dto
  refine ⟨?_, putTodoItem_not_ok s pathId dto, ?_⟩
  · rcases (putTodoItem_shape s pathId dto).2 with heq | heq
    · rw [heq]
    · rw [heq, toggleFirst_map_idTitle]
  · rcases (putTodoItem_shape s pathId dto).2 with heq | heq
    · rw [heq]
      exact forall₂_toggle_refl dto.id s.items
    · rw [heq]
      exact toggleFirst_forall₂ dto.id s.items

theorem c7_witness :
    (TodoController.PutTodoItem exStore 9 { id := 7, isCompleted := true }).2 = exStore
    ∧ (TodoController.PutTodoItem exStore 1 { id := 1, isCompleted := true }).2.items.map
        (fun it => (it.id, it.title)) = exStore.items.map (fun it => (it.id, it.title)) :=
  ⟨(c7_theorem exStore 9 { id := 7, isCompleted := true }).2.1 (by decide),
   (c7_theorem exStore 1 { id := 1, isCompleted := true }).1⟩

/-- Claim C2 counterexample: the title "<b></b>" sanitizes to the empty
string, so per the claim the server must respond 400; the server does not
strip HTML tags and responds 201. -/
theorem c2_counterexample :
    App.sanitizeInput "<b></b>" = ""
    ∧ (TodoController.AddTodo store0 (some "<b></b>")).1 = 201
    ∧ (TodoController.AddTodo store0 (some "<b></b>")).1 ≠ 400 :=
  ⟨by decide, by decide, by decide⟩

/-- Claim C2 (amended): the server responds 400 exactly when the title is
absent, its trimmed form is empty (in particular a whitespace-only title
fails), or its raw length exceeds 100 characters; otherwise it responds 201
and appends the posted item.  The server does not HTML-strip, so a title of
exactly 100 raw characters succeeds and one of 101 raw characters fails. -/
theorem c2_theorem : ∀ (s : Store) (t : Option String),
    ((TodoController.AddTodo s t).1 = 400 ↔
      (t = none ∨ ∃ u, t = some u ∧ (jsTrim u = "" ∨ 100 < u.length)))
    ∧ ((TodoController.AddTodo s t).1 ≠ 400 →
        (TodoController.AddTodo s t).1 = 201
        ∧ ∃ u, t = some u ∧ (TodoController.AddTodo s t).2.1.items
            = s.items ++ [{ id := s.nextId, title := some u, isCompleted := false }]) := by
  intro s t
  cases t with
  | none =>
    have h400 : (TodoController.AddTodo s none).1 = 400 := by
      simp [TodoController.AddTodo, modelStateValid, requiredValid]
    exact ⟨by simp [h400], fun h => absurd h400 h⟩
  | some u =>
    by_cases hv : modelStateValid (some u) = true
    · have h201 : TodoController.AddTodo s (some u)
          = (201, { items := s.items ++ [{ id := s.nextId, title := some u,
                                           isCompleted := false }],
                    nextId := s.nextId + 1 },
             some { id := s.nextId, title := some u, isCompleted := false }) := by
        rw [TodoController.AddTodo, if_pos hv]
        rfl
      obtain ⟨hne, hlen⟩ := (modelStateValid_some_iff u).1 hv
      constructor
      · rw [h201]
        constructor
        · intro h
          exact absurd h (by norm_num)
        · rintro (hnone | ⟨u2, hu2, hbad⟩)
          · exact absurd hnone (by simp)
          · have hu : u2 = u := by
              injection hu2 with h
              exact h.symm
            subst hu
            rcases hbad with hb | hb
            · exact absurd ((jsTrim_eq_empty_iff u2).1 hb) hne
            · omega
      · intro _
        rw [h201]
        exact ⟨rfl, u, rfl, rfl⟩
    · have h400 : (TodoController.AddTodo s (some u)).1 = 400 := by
        simp [TodoController.AddTodo, hv]
      constructor
      · rw [h400]
        refine ⟨fun _ => Or.inr ⟨u, rfl, ?_⟩, fun _ => rfl⟩
        have hnv : ¬ (trimChars u.data ≠ [] ∧ u.length ≤ 100) := by
          intro hcon
          exact hv ((modelStateValid_some_iff u).2 hcon)
        by_cases hne : trimChars u.data = []
        · exact Or.inl ((jsTrim_eq_empty_iff u).2 hne)
        · right
          by_contra hlen
          exact hnv ⟨hne, by omega⟩
      · intro h
        exact absurd h400 h

theorem c2_witness :
    (TodoController.AddTodo store0 (some (String.mk (List.replicate 100 'a')))).1 = 201
    ∧ (TodoController.AddTodo store0 (some (String.mk (List.replicate 101 'a')))).1 = 400
    ∧ (TodoController.AddTodo store0 (some "   ")).1 = 400 :=
  ⟨((c2_theorem store0 (some (String.mk (List.replicate 100 'a')))).2 (by decide)).1,
   (c2_theorem store0 (some (String.mk (List.replicate 101 'a')))).1.mpr
     (Or.inr ⟨String.mk (List.replicate 101 'a'), rfl, Or.inr (by decide)⟩),
   (c2_theorem store0 (some "   ")).1.mpr (Or.inr ⟨"   ", rfl, Or.inl (by decide)⟩)⟩

/-- Claim C3 counterexample: " a " has trimmed length 1, within the claim's
bounds, yet POSTing {title: " a "} directly stores the title verbatim: the
listed item's title is " a ", not the trimmed and tag-stripped form "a". -/
theorem c3_counterexample :
    1 ≤ (jsTrim " a ").length
    ∧ (jsTrim " a ").length ≤ 100
    ∧ (TodoController.AddTodo store0 (some " a ")).2.1.items
        = [{ id := 1, title := some " a ", isCompleted := false }]
    ∧ App.sanitizeInput " a " = "a"
    ∧ some (" a " : String) ≠ some ("a" : String) :=
  ⟨by decide, by decide, by decide, by decide, by decide⟩

/-- Claim C3 (amended): the server stores the posted title verbatim; the
trimming and HTML-tag stripping happen in the client before POSTing.  For
every input title with a nonempty raw trim whose sanitized form has length
between 1 and 100, the client addTodo flow creates exactly one new item
whose title is sanitizeInput(title) — the trimmed, tag-stripped form — with
isCompleted = false, and the re-fetched listing shows the server's list. -/
theorem c3_theorem : ∀ (server : Store) (cs : ClientState),
    jsTrim cs.title ≠ "" →
    1 ≤ (App.sanitizeInput cs.title).length →
    (App.sanitizeInput cs.title).length ≤ 100 →
    (App.addTodo server cs).1.items
      = server.items ++ [{ id := server.nextId,
                           title := some (App.sanitizeInput cs.title),
                           isCompleted := false }]
    ∧ (App.addTodo server cs).2.todos = (App.addTodo server cs).1.items
    ∧ App.sanitizeInput cs.title = jsTrim (String.mk (stripTagsL cs.title.data)) := by
  intro server cs h1 hlen1 hlen2
  have h2 : App.validateInput (App.sanitizeInput cs.title) = true :=
    (validateInput_iff _).2 ⟨hlen1, hlen2⟩
  rw [addTodo_success server cs h1 h2]
  exact ⟨rfl, rfl, rfl⟩

theorem c3_witness :
    (App.addTodo store0 exClient).1.items
      = store0.items ++ [{ id := store0.nextId,
                           title := some (App.sanitizeInput exClient.title),
                           isCompleted := false }]
    ∧ (App.addTodo store0 exClient).2.todos = (App.addTodo store0 exClient).1.items :=
  ⟨(c3_theorem store0 exClient (by decide) (by decide) (by decide)).1,
   (c3_theorem store0 exClient (by decide) (by decide) (by decide)).2.1⟩

/-- Claim C5 (confirmed; id generation modelled from the spec): the key
generator starts at 1; every create stores the new item with the generator's
current value and increments it; the generator never decreases (so ids over
successive creates are strictly increasing even across deletes); the ids in
any reachable store are strictly increasing in insertion order and hence
unique; and toggle preserves every item's id (and title) while delete only
removes items, so an item's id never changes after creation. -/
theorem c5_theorem : ∀ ops : List Op,
    store0.nextId = 1
    ∧ ((runOps ops).items.map TodoItem.id).Chain' (· < ·)
    ∧ ((runOps ops).items.map TodoItem.id).Nodup
    ∧ (∀ it ∈ (runOps ops).items, it.id < (runOps ops).nextId)
    ∧ (∀ op, (runOps ops).nextId ≤ (applyOp (runOps ops) op).nextId)
    ∧ (∀ t, modelStateValid t = true →
        (applyOp (runOps ops) (Op.create t)).items
          = (runOps ops).items ++ [{ id := (runOps ops).nextId, title := t,
                                     isCompleted := false }]
        ∧ (applyOp (runOps ops) (Op.create t)).nextId = (runOps ops).nextId + 1)
    ∧ (∀ pathId dto, (applyOp (runOps ops) (Op.toggle pathId dto)).items.map
          (fun it => (it.id, it.title))
        = (runOps ops).items.map (fun it => (it.id, it.title)))
    ∧ (∀ i, ((applyOp (runOps ops) (Op.del i)).items).Sublist (runOps ops).items) := by
  intro ops
  obtain ⟨hchain, hbound⟩ := storeInv_runOps ops
  refine ⟨rfl, hchain, ?_, hbound, nextId_mono (runOps ops), ?_, ?_, ?_⟩
  · exact (List.chain'_iff_pairwise.1 hchain).imp (fun h => ne_of_lt h)
  · intro t hv
    constructor
    · simp [applyOp, TodoController.AddTodo, TodoService.AddTodo, hv]
    · simp [applyOp, TodoController.AddTodo, TodoService.AddTodo, hv]
  · intro pathId dto
    rcases (putTodoItem_shape (runOps ops) pathId dto).2 with heq | heq
    · rw [show applyOp (runOps ops) (Op.toggle pathId dto)
          = (TodoController.PutTodoItem (runOps ops) pathId dto).2 from rfl, heq]
    · rw [show applyOp (runOps ops) (Op.toggle pathId dto)
          = (TodoController.PutTodoItem (runOps ops) pathId dto).2 from rfl, heq,
        toggleFirst_map_idTitle]
  · intro i
    exact deleteFirstById_sublist i (runOps ops).items

theorem c5_witness :
    store0.nextId = 1
    ∧ (applyOp (runOps [Op.create (some "Buy milk"), Op.del 1])
          (Op.create (some "x"))).items
        = (runOps [Op.create (some "Buy milk"), Op.del 1]).items
          ++ [{ id := (runOps [Op.create (some "Buy milk"), Op.del 1]).nextId,
                title := some "x", isCompleted := false }] :=
  ⟨(c5_theorem []).1,
   ((c5_theorem [Op.create (some "Buy milk"), Op.del 1]).2.2.2.2.2.1
      (some "x") (by decide)).1⟩

/-- Claim C9 (confirmed): after every successful mutation — create, toggle,
or delete — the client re-fetches the full list from the server before the
next render, so the displayed list equals the server's list. -/
theorem c9_theorem : ∀ (server : Store) (cs : ClientState) (i : Int) (b : Bool),
    ((App.deletetodo server cs i).2.todos = (App.deletetodo server cs i).1.items)
    ∧ ((TodoController.PutTodoItem server i (toggleBody i b)).1 = 200 →
        (App.toggletodo server cs i b).2.todos = (App.toggletodo server cs i b).1.items)
    ∧ (jsTrim cs.title ≠ "" → App.validateInput (App.sanitizeInput cs.title) = true →
        (App.addTodo server cs).2.todos = (App.addTodo server cs).1.items) := by
  intro server cs i b
  refine ⟨rfl, fun h => ?_, fun h1 h2 => ?_⟩
  · have heq : App.toggletodo server cs i b
        = ((toggleTodo server i b).1,
           App.fetchTodosFromService (toggleTodo server i b).1 cs) := by
      show (if isOk (toggleTodo server i b).2 then _ else _) = _
      rw [show (toggleTodo server i b).2
          = (TodoController.PutTodoItem server i (toggleBody i b)).1 from rfl, h]
      rfl
    rw [heq]
    rfl
  · rw [addTodo_success server cs h1 h2]

theorem c9_witness :
    (App.deletetodo exStore exClient 1).2.todos = (App.deletetodo exStore exClient 1).1.items
    ∧ (App.toggletodo exStore exClient 1 false).2.todos
        = (App.toggletodo exStore exClient 1 false).1.items
    ∧ (App.addTodo store0 exClient).2.todos = (App.addTodo store0 exClient).1.items :=
  ⟨(c9_theorem exStore exClient 1 false).1,
   (c9_theorem exStore exClient 1 false).2.1 (by decide),
   (c9_theorem store0 exClient 1 false).2.2 (by decide) (by decide)⟩
